import Mathlib

/-!
Verification development for the kafeel-macos icon scripts.

The repository contains two Python scripts:
* `generate_icons.py` — draws a gradient icon with four rounded bars at
  the fixed macOS icon sizes, applies a rounded-corner alpha mask, and
  writes a `Contents.json` manifest.
* `create_proper_iconset.py` — copies a fixed list of (source, dest)
  filename pairs from `AppIcon.appiconset` into `Kafeel.iconset`.

The embedding below translates both scripts.  Python integers become `ℤ`
(or `ℕ` for sizes/indices), Python float arithmetic on the small literal
ratios is modelled exactly over `ℚ`, `int(...)` truncation becomes
`pyInt`, and PIL images become pixel functions `ℤ → ℤ → RGBA` together
with their dimensions.  PIL's `rounded_rectangle` rasterizer is library
code, not part of this repository; it is modelled geometrically from the
spec ("fully opaque inside a rounded rectangle …, transparent outside").
The filesystem touched by the repackager becomes an explicit map from
(directory, filename) pairs to file contents.
-/

/-- Python `int(...)` applied to an exact rational: truncation toward zero. -/
def pyInt (q : ℚ) : ℤ := if 0 ≤ q then ⌊q⌋ else -⌊-q⌋

/-- An RGBA pixel value `(r, g, b, a)`, mirroring PIL's 4-tuples. -/
abbrev RGBA := ℤ × ℤ × ℤ × ℤ

/-- A pixel buffer: colour of the pixel at integer coordinates `(x, y)`. -/
abbrev PixFun := ℤ → ℤ → RGBA

/-- An image as PIL exposes it: a width, a height and the pixel contents. -/
structure Image where
  width : ℕ
  height : ℕ
  pix : PixFun

/-- PIL `draw.rectangle([(x0, y0), (x1, y1)], fill = c)`: fills every pixel
with `x0 ≤ x ≤ x1` and `y0 ≤ y ≤ y1` (PIL rectangles include both corners). -/
def drawRect (x0 y0 x1 y1 : ℤ) (c : RGBA) (f : PixFun) : PixFun := fun x y =>
  if x0 ≤ x ∧ x ≤ x1 ∧ y0 ≤ y ∧ y ≤ y1 then c else f x y

/-- Modelled from the spec: PIL's `ImageDraw.rounded_rectangle` rasterizer is
library code missing from this repository; the spec describes its fill as
"fully opaque inside a rounded rectangle …, transparent outside".  A point of
the box `[x0, x1] × [y0, y1]` is inside unless it falls in one of the four
`r × r` corner zones while lying outside that corner's quarter disc (the disc
of radius `r` about the corner's arc centre). -/
def InRoundedRect (x0 y0 x1 y1 r x y : ℤ) : Prop :=
  x0 ≤ x ∧ x ≤ x1 ∧ y0 ≤ y ∧ y ≤ y1 ∧
  (x < x0 + r ∧ y < y0 + r → (x - (x0 + r)) ^ 2 + (y - (y0 + r)) ^ 2 ≤ r ^ 2) ∧
  (x1 - r < x ∧ y < y0 + r → (x - (x1 - r)) ^ 2 + (y - (y0 + r)) ^ 2 ≤ r ^ 2) ∧
  (x < x0 + r ∧ y1 - r < y → (x - (x0 + r)) ^ 2 + (y - (y1 - r)) ^ 2 ≤ r ^ 2) ∧
  (x1 - r < x ∧ y1 - r < y → (x - (x1 - r)) ^ 2 + (y - (y1 - r)) ^ 2 ≤ r ^ 2)

instance instDecInRoundedRect (x0 y0 x1 y1 r x y : ℤ) :
    Decidable (InRoundedRect x0 y0 x1 y1 r x y) :=
  inferInstanceAs (Decidable (x0 ≤ x ∧ x ≤ x1 ∧ y0 ≤ y ∧ y ≤ y1 ∧
    (x < x0 + r ∧ y < y0 + r → (x - (x0 + r)) ^ 2 + (y - (y0 + r)) ^ 2 ≤ r ^ 2) ∧
    (x1 - r < x ∧ y < y0 + r → (x - (x1 - r)) ^ 2 + (y - (y0 + r)) ^ 2 ≤ r ^ 2) ∧
    (x < x0 + r ∧ y1 - r < y → (x - (x0 + r)) ^ 2 + (y - (y1 - r)) ^ 2 ≤ r ^ 2) ∧
    (x1 - r < x ∧ y1 - r < y → (x - (x1 - r)) ^ 2 + (y - (y1 - r)) ^ 2 ≤ r ^ 2)))

/-- The first gradient endpoint `#667eea = (102, 126, 234, 255)`. -/
def gradient_color : RGBA := (102, 126, 234, 255)

/-- The second gradient endpoint `#764ba2 = (118, 75, 162, 255)`. -/
def gradient_color2 : RGBA := (118, 75, 162, 255)

/-- The fill colour of gradient row `y`: each channel is
`int(c1 * (1 - ratio) + c2 * ratio)` with `ratio = y / size`, alpha `255`.
The Python float arithmetic is modelled as exact rational arithmetic.  At
the power-of-two pixel sizes `generate_all_icons` passes to `create_icon`,
every intermediate value is a dyadic rational of under 20 significant bits,
exactly representable in binary64, so this definition coincides with the
program there; at other sizes binary64 rounding can lower a channel by one
(size 12, row 5, blue: the program computes 203 where the exact
interpolation truncates to 204), which the C5 counterexample certifies. -/
def gradColor (size y : ℕ) : RGBA :=
  (pyInt (102 * (1 - (y : ℚ) / size) + 118 * ((y : ℚ) / size)),
   pyInt (126 * (1 - (y : ℚ) / size) + 75 * ((y : ℚ) / size)),
   pyInt (234 * (1 - (y : ℚ) / size) + 162 * ((y : ℚ) / size)),
   255)

/-- The canvas starts fully transparent: `Image.new('RGBA', …, (0,0,0,0))`. -/
def transparentPix : PixFun := fun _ _ => (0, 0, 0, 0)

/-- One iteration of the gradient loop: `draw.rectangle([(0, y), (size, y+1)],
fill=(r, g, b, 255))` at row index `y = n`. -/
def gradientStep (size : ℕ) (f : PixFun) (n : ℕ) : PixFun :=
  drawRect 0 n size (n + 1) (gradColor size n) f

/-- The gradient loop `for y in range(n)` run on top of `f`, drawing rows
`0, …, n-1` in order (the draw for the largest row index lands last). -/
def gradientFill (size : ℕ) : ℕ → PixFun → PixFun
  | 0, f => f
  | n + 1, f => gradientStep size (gradientFill size n f) n

/-- The canvas after the gradient loop of `create_icon(size)`. -/
def gradientImage (size : ℕ) : PixFun := gradientFill size size transparentPix

/-- Source: `bar_width = int(size * 0.15)`. -/
def bar_width (size : ℕ) : ℤ := pyInt ((size : ℚ) * (15 / 100))

/-- Source: `bar_spacing = int(size * 0.05)`. -/
def bar_spacing (size : ℕ) : ℤ := pyInt ((size : ℚ) * (5 / 100))

/-- Source: `bar_corner = int(size * 0.03)`. -/
def bar_corner (size : ℕ) : ℤ := pyInt ((size : ℚ) * (3 / 100))

/-- Source: `bar_heights = [0.25, 0.45, 0.35, 0.38]`. -/
def bar_heights : List ℚ := [25 / 100, 45 / 100, 35 / 100, 38 / 100]

/-- Source: `total_width = 4 * bar_width + 3 * bar_spacing`. -/
def total_width (size : ℕ) : ℤ := 4 * bar_width size + 3 * bar_spacing size

/-- Source: `start_x = (size - total_width) // 2` (Python floor division). -/
def start_x (size : ℕ) : ℤ := Int.fdiv ((size : ℤ) - total_width size) 2

/-- Source: `bottom_padding = int(size * 0.15)`. -/
def bottom_padding (size : ℕ) : ℤ := pyInt ((size : ℚ) * (15 / 100))

/-- Source: `bar_height = int(size * height_ratio)` for bar `i`. -/
def bar_height (size i : ℕ) : ℤ := pyInt ((size : ℚ) * bar_heights.getD i 0)

/-- Source: `x = start_x + i * (bar_width + bar_spacing)` for bar `i`. -/
def barX (size i : ℕ) : ℤ := start_x size + i * (bar_width size + bar_spacing size)

/-- Source: `y = size - bottom_padding - bar_height` for bar `i`. -/
def barY (size i : ℕ) : ℤ := (size : ℤ) - bottom_padding size - bar_height size i

/-- Source: `alpha = 255 if i < 2 else int(255 * (0.9 if i == 2 else 0.85))`. -/
def barAlpha (i : ℕ) : ℤ :=
  if i < 2 then 255 else pyInt (255 * (if i = 2 then (9 : ℚ) / 10 else 85 / 100))

/-- One iteration of the bar loop: `draw.rounded_rectangle([(x, y),
(x + bar_width, y + bar_height)], radius=bar_corner, fill=(255,255,255,alpha))`. -/
def drawBarStep (size : ℕ) (f : PixFun) (i : ℕ) : PixFun := fun x y =>
  if InRoundedRect (barX size i) (barY size i) (barX size i + bar_width size)
      (barY size i + bar_height size i) (bar_corner size) x y then
    (255, 255, 255, barAlpha i)
  else f x y

/-- The canvas after the gradient and the four bars of `create_icon(size)`. -/
def barsImage (size : ℕ) : PixFun :=
  (List.range 4).foldl (drawBarStep size) (gradientImage size)

/-- Source: `corner_radius = int(size * 0.22)`. -/
def corner_radius (size : ℕ) : ℤ := pyInt ((size : ℚ) * (22 / 100))

/-- The mask channel: an `'L'` canvas initialised to `0`, then
`mask_draw.rounded_rectangle([(0, 0), (size, size)], radius=corner_radius,
fill=255)`. -/
def maskPix (size : ℕ) (x y : ℤ) : ℤ :=
  if InRoundedRect 0 0 size size (corner_radius size) x y then 255 else 0

/-- Source: `output.putalpha(mask)`: keep the RGB channels, replace alpha. -/
def putAlphaPix (c : RGBA) (a : ℤ) : RGBA := (c.1, c.2.1, c.2.2.1, a)

/-- The in-progress canvas `img` of `create_icon(size)` (gradient plus bars),
before masking: `Image.new('RGBA', (size, size))` then the draw calls. -/
def createIconCanvas (size : ℕ) : Image :=
  { width := size, height := size, pix := barsImage size }

/-- Source: `create_icon(size)`: a fresh transparent `size × size` canvas, `paste` of
the drawn canvas at `(0, 0)`, then `putalpha(mask)`. -/
def createIcon (size : ℕ) : Image :=
  { width := size, height := size,
    pix := fun x y => putAlphaPix ((createIconCanvas size).pix x y) (maskPix size x y) }

/-- The alpha channel of an image at `(x, y)`. -/
def alphaAt (img : Image) (x y : ℤ) : ℤ := (img.pix x y).2.2.2

/-! ## `generate_all_icons`: file names and the `Contents.json` manifest -/

/-- The fixed `sizes` list of `generate_all_icons`: `(base_size, scale)`. -/
def sizes : List (ℕ × ℕ) :=
  [(16, 1), (16, 2), (32, 1), (32, 2), (128, 1), (128, 2),
   (256, 1), (256, 2), (512, 1), (512, 2)]

/-- Source: `suffix = "@2x" if scale == 2 else ""`. -/
def scaleSuffix (scale : ℕ) : String := if scale = 2 then "@2x" else ""

/-- Source: `filename = f"icon_-base_size-x-base_size--suffix-.png"`. -/
def iconFilename (base scale : ℕ) : String :=
  "icon_" ++ toString base ++ "x" ++ toString base ++ scaleSuffix scale ++ ".png"

/-- The PNG files written by the loop of `generate_all_icons`, in order. -/
def writtenPNGs : List String := sizes.map fun p => iconFilename p.1 p.2

/-- One entry of the manifest's `images` array. -/
structure ManifestEntry where
  filename : String
  idiom : String
  scale : String
  size : String
deriving DecidableEq

/-- The `info` footer of the manifest. -/
structure ManifestInfo where
  author : String
  version : ℕ
deriving DecidableEq

/-- The `Contents.json` document. -/
structure Manifest where
  images : List ManifestEntry
  info : ManifestInfo
deriving DecidableEq

/-- The `contents` dictionary written to `Contents.json` by
`generate_all_icons`: the scale-1 comprehension, then the scale-2
comprehension, then the static `info` footer. -/
def contentsManifest : Manifest where
  images :=
    ((sizes.filter fun p => p.2 == 1).map fun p =>
      { filename := "icon_" ++ toString p.1 ++ "x" ++ toString p.1 ++ ".png"
        idiom := "mac", scale := "1x", size := toString p.1 ++ "x" ++ toString p.1 }) ++
    ((sizes.filter fun p => p.2 == 2).map fun p =>
      { filename := "icon_" ++ toString p.1 ++ "x" ++ toString p.1 ++ "@2x.png"
        idiom := "mac", scale := "2x", size := toString p.1 ++ "x" ++ toString p.1 })
  info := { author := "kafeel-icon-generator", version := 1 }

/-! ## `create_proper_iconset.py`: the repackager

The filesystem is a map from `(directory, filename)` keys to optional file
contents (byte lists), together with the set of existing directories. -/

/-- A filesystem snapshot. -/
@[ext]
structure FS where
  files : String × String → Option (List ℕ)
  dirs : String → Bool

/-- Source: `src_dir = Path("AppIcon.appiconset")`. -/
def src_dir : String := "AppIcon.appiconset"

/-- Source: `dest_dir = Path("Kafeel.iconset")`. -/
def dest_dir : String := "Kafeel.iconset"

/-- The key of `src_dir / name`. -/
def srcKey (name : String) : String × String := (src_dir, name)

/-- The key of `dest_dir / name`. -/
def destKey (name : String) : String × String := (dest_dir, name)

/-- The fixed `mappings` list of `(src_name, dest_name)` pairs. -/
def mappings : List (String × String) :=
  [("icon_16x16.png", "icon_16x16.png"),
   ("icon_16x16@2x.png", "icon_16x16@2x.png"),
   ("icon_32x32.png", "icon_32x32.png"),
   ("icon_32x32@2x.png", "icon_32x32@2x.png"),
   ("icon_128x128.png", "icon_128x128.png"),
   ("icon_128x128@2x.png", "icon_128x128@2x.png"),
   ("icon_256x256.png", "icon_256x256.png"),
   ("icon_256x256@2x.png", "icon_256x256@2x.png"),
   ("icon_512x512.png", "icon_512x512.png"),
   ("icon_512x512@2x.png", "icon_512x512@2x.png")]

/-- Overwrite the contents stored under one key. -/
def writeFile (f : String × String → Option (List ℕ)) (k : String × String)
    (v : Option (List ℕ)) : String × String → Option (List ℕ) :=
  fun k' => if k' = k then v else f k'

/-- One iteration of the copy loop: `if src_file.exists():
shutil.copy(src_file, dest_file)`, reading the current filesystem. -/
def copyStep (fs : FS) (p : String × String) : FS :=
  if (fs.files (srcKey p.1)).isSome then
    { fs with files := writeFile fs.files (destKey p.2) (fs.files (srcKey p.1)) }
  else fs

/-- The copy loop over a mapping list. -/
def runMappings (fs : FS) (l : List (String × String)) : FS := l.foldl copyStep fs

/-- The whole script: `dest_dir.mkdir(exist_ok=True)`, then the copy loop
over `mappings`. -/
def repackage (fs : FS) : FS :=
  runMappings
    { fs with dirs := fun d => if d = dest_dir then true else fs.dirs d }
    mappings

/-! ## Helper lemmas about the copy loop -/

lemma copyStep_dirs (fs : FS) (p : String × String) : (copyStep fs p).dirs = fs.dirs := by
  unfold copyStep; split <;> rfl

lemma runMappings_dirs (l : List (String × String)) (fs : FS) :
    (runMappings fs l).dirs = fs.dirs := by
  induction l generalizing fs with
  | nil => rfl
  | cons a t ih =>
    show (runMappings (copyStep fs a) t).dirs = fs.dirs
    rw [ih, copyStep_dirs]

lemma copyStep_files_ne (fs : FS) (p : String × String) (k : String × String)
    (h : k ≠ destKey p.2) : (copyStep fs p).files k = fs.files k := by
  unfold copyStep; split
  · simp [writeFile, h]
  · rfl

lemma srcKey_ne_destKey (m n : String) : srcKey m ≠ destKey n := by
  intro h
  have : src_dir = dest_dir := congrArg Prod.fst h
  exact absurd this (by decide)

lemma runMappings_files_notMem (l : List (String × String)) (fs : FS)
    (k : String × String) (h : k ∉ l.map fun p => destKey p.2) :
    (runMappings fs l).files k = fs.files k := by
  induction l generalizing fs with
  | nil => rfl
  | cons a t ih =>
    show (runMappings (copyStep fs a) t).files k = fs.files k
    rw [List.map_cons, List.mem_cons, not_or] at h
    rw [ih _ h.2, copyStep_files_ne fs a k h.1]

lemma runMappings_files_destKey (l : List (String × String)) (fs : FS) (s d : String)
    (hmem : (s, d) ∈ l) (hnodup : (l.map fun p => destKey p.2).Nodup) :
    (runMappings fs l).files (destKey d) =
      if (fs.files (srcKey s)).isSome then fs.files (srcKey s)
      else fs.files (destKey d) := by
  induction l generalizing fs with
  | nil => cases hmem
  | cons a t ih =>
    rw [List.map_cons, List.nodup_cons] at hnodup
    show (runMappings (copyStep fs a) t).files (destKey d) = _
    rcases List.mem_cons.1 hmem with heq | hmem'
    · subst heq
      rw [runMappings_files_notMem t _ _ hnodup.1]
      unfold copyStep
      split

      · simp_all [writeFile]
      · simp_all
    · have hdk : destKey d ∈ t.map fun p => destKey p.2 :=
        List.mem_map.2 ⟨(s, d), hmem', rfl⟩
      have hne : destKey d ≠ destKey a.2 := fun h => hnodup.1 (h ▸ hdk)
      rw [ih _ hmem' hnodup.2, copyStep_files_ne fs a _ hne,
        copyStep_files_ne fs a _ (srcKey_ne_destKey s a.2)]

lemma mappings_destKeys_nodup : (mappings.map fun p => destKey p.2).Nodup := by decide

lemma repackage_files_eq_runMappings (fs : FS) :
    (repackage fs).files =
      (runMappings { fs with dirs := fun d => if d = dest_dir then true else fs.dirs d }
        mappings).files := rfl

lemma repackage_files_destKey (fs : FS) (s d : String) (hmem : (s, d) ∈ mappings) :
    (repackage fs).files (destKey d) =
      if (fs.files (srcKey s)).isSome then fs.files (srcKey s)
      else fs.files (destKey d) := by
  rw [repackage_files_eq_runMappings,
    runMappings_files_destKey mappings _ s d hmem mappings_destKeys_nodup]

lemma repackage_files_notMem (fs : FS) (k : String × String)
    (h : k ∉ mappings.map fun p => destKey p.2) :
    (repackage fs).files k = fs.files k := by
  rw [repackage_files_eq_runMappings, runMappings_files_notMem mappings _ k h]

lemma repackage_files_srcKey (fs : FS) (n : String) :
    (repackage fs).files (srcKey n) = fs.files (srcKey n) := by
  refine repackage_files_notMem fs (srcKey n) fun h => ?_
  rcases List.mem_map.1 h with ⟨p, _, hp⟩
  exact srcKey_ne_destKey n p.2 hp.symm

lemma repackage_dirs (fs : FS) (q : String) :
    (repackage fs).dirs q = if q = dest_dir then true else fs.dirs q := by
  rw [repackage, runMappings_dirs]

/-- An empty filesystem, used to instantiate the repackager theorems. -/
def fsEmpty : FS := { files := fun _ => none, dirs := fun _ => false }

/-- A filesystem holding a single source icon with contents `[7]`. -/
def fsOne : FS :=
  { files := fun k => if k = srcKey "icon_16x16.png" then some [7] else none,
    dirs := fun _ => false }

/-- C6: for every `(src_name, dest_name)` pair of the fixed mapping, when the
source file is missing the pair is skipped — the run completes (the embedded
script is a total function, raising no exception) and the destination entry is
left exactly as it was, so no destination file is created — and when the
source exists its contents are copied byte-for-byte to the destination. -/
theorem repackage_skips_missing_and_copies_bytes (fs : FS) (s d : String)
    (hmem : (s, d) ∈ mappings) :
    (fs.files (srcKey s) = none →
      (repackage fs).files (destKey d) = fs.files (destKey d)) ∧
    (∀ b, fs.files (srcKey s) = some b → (repackage fs).files (destKey d) = some b) := by
  constructor
  · intro h; rw [repackage_files_destKey fs s d hmem, h]; simp
  · intro b h; rw [repackage_files_destKey fs s d hmem, h]; simp

/-- Witness for C6 at the pair `icon_16x16.png`: with no source file the
destination stays absent; with source contents `[7]` they arrive verbatim. -/
theorem repackage_skips_missing_and_copies_bytes_witness :
    (repackage fsEmpty).files (destKey "icon_16x16.png") =
      fsEmpty.files (destKey "icon_16x16.png") ∧
    (repackage fsOne).files (destKey "icon_16x16.png") = some [7] :=
  ⟨(repackage_skips_missing_and_copies_bytes fsEmpty "icon_16x16.png" "icon_16x16.png"
      (by decide)).1 rfl,
   (repackage_skips_missing_and_copies_bytes fsOne "icon_16x16.png" "icon_16x16.png"
      (by decide)).2 [7] (by
      show (if srcKey "icon_16x16.png" = srcKey "icon_16x16.png" then some [7] else none)
          = some [7]
      simp)⟩

/-- C7: repackaging is idempotent — running the script a second time over the
unchanged source directory leaves the whole filesystem, in particular every
destination file, byte-identical to what a single run produces. -/
theorem repackage_idempotent (fs : FS) : repackage (repackage fs) = repackage fs := by
  have hfiles : ∀ k, (repackage (repackage fs)).files k = (repackage fs).files k := by
    intro k
    by_cases hk : k ∈ mappings.map fun p => destKey p.2
    · rcases List.mem_map.1 hk with ⟨p, hp, rfl⟩
      have hmem : (p.1, p.2) ∈ mappings := Prod.mk.eta ▸ hp
      rw [repackage_files_destKey (repackage fs) p.1 p.2 hmem, repackage_files_srcKey]
      by_cases hsrc : (fs.files (srcKey p.1)).isSome
      · rw [if_pos hsrc, repackage_files_destKey fs p.1 p.2 hmem, if_pos hsrc]
      · rw [if_neg hsrc]
    · rw [repackage_files_notMem _ _ hk]
  have hdirs : ∀ q, (repackage (repackage fs)).dirs q = (repackage fs).dirs q := by
    intro q
    simp only [repackage_dirs]
    by_cases h : q = dest_dir <;> simp [h]
  exact FS.ext (funext hfiles) (funext hdirs)

/-- C10: the repackager never modifies the source directory — every file
under `src_dir` keeps its exact contents — and its only filesystem writes are
the creation of `dest_dir` and the copies of the mapped files into it: every
file outside the mapped destinations and every directory other than
`dest_dir` is untouched. -/
theorem repackage_frame (fs : FS) :
    (∀ n, (repackage fs).files (srcKey n) = fs.files (srcKey n)) ∧
    (∀ k, k ∉ mappings.map (fun p => destKey p.2) →
      (repackage fs).files k = fs.files k) ∧
    (∀ q, q ≠ dest_dir → (repackage fs).dirs q = fs.dirs q) := by
  refine ⟨repackage_files_srcKey fs, repackage_files_notMem fs, fun q hq => ?_⟩
  rw [repackage_dirs, if_neg hq]

/-- Witness for C10: source file, an unrelated path and an unrelated
directory are untouched by a concrete run. -/
theorem repackage_frame_witness :
    (repackage fsOne).files (srcKey "icon_16x16.png") =
      fsOne.files (srcKey "icon_16x16.png") ∧
    (repackage fsOne).files ("other", "x.png") = fsOne.files ("other", "x.png") ∧
    (repackage fsOne).dirs "other" = fsOne.dirs "other" :=
  ⟨(repackage_frame fsOne).1 _, (repackage_frame fsOne).2.1 _ (by decide),
   (repackage_frame fsOne).2.2 _ (by decide)⟩

/-- C1: for every `(base_size, scale)` pair in the fixed enumeration, both
the drawing canvas and the final masked output of `create_icon(base*scale)`
have pixel dimensions exactly `(base*scale) × (base*scale)`. -/
theorem createIcon_dimensions :
    ∀ p ∈ sizes, (createIconCanvas (p.1 * p.2)).width = p.1 * p.2 ∧
      (createIconCanvas (p.1 * p.2)).height = p.1 * p.2 ∧
      (createIcon (p.1 * p.2)).width = p.1 * p.2 ∧
      (createIcon (p.1 * p.2)).height = p.1 * p.2 := by
  intro p _
  exact ⟨rfl, rfl, rfl, rfl⟩

/-- Witness for C1 at `(16, 2)`: a 32 × 32 canvas and output. -/
theorem createIcon_dimensions_witness :
    (createIconCanvas 32).width = 32 ∧ (createIconCanvas 32).height = 32 ∧
    (createIcon 32).width = 32 ∧ (createIcon 32).height = 32 :=
  createIcon_dimensions (16, 2) (by decide)

/-- C3: every filename appearing in an `images` entry of the written
`Contents.json` names a PNG file actually written into the output directory
by the same run of `generate_all_icons`. -/
theorem manifest_filenames_written :
    ∀ e ∈ contentsManifest.images, e.filename ∈ writtenPNGs := by
  decide

/-- Witness for C3 at the first manifest entry. -/
theorem manifest_filenames_written_witness : "icon_16x16.png" ∈ writtenPNGs :=
  manifest_filenames_written
    { filename := "icon_16x16.png", idiom := "mac", scale := "1x", size := "16x16" }
    (by decide)

/-- C4: the manifest holds exactly 2 entries per base size — 10 entries in
total for the base sizes 16, 32, 128, 256 and 512 — each of the form
`(filename, idiom "mac", scale "1x" or "2x", size "<base>x<base>")`, the
filename carrying the `@2x` suffix exactly when the scale is `"2x"`, and an
`info` footer with a nonempty author and version 1. -/
theorem manifest_structure :
    contentsManifest.images.length = 10 ∧
    ([16, 32, 128, 256, 512].all fun b =>
      (contentsManifest.images.filter fun e =>
        e.size == toString b ++ "x" ++ toString b).length == 2) = true ∧
    (contentsManifest.images.all fun e =>
      (e.idiom == "mac") &&
      ((e.scale == "1x") || (e.scale == "2x")) &&
      (e.filename ==
        "icon_" ++ e.size ++ (if e.scale == "2x" then "@2x" else "") ++ ".png") &&
      ((e.scale == "2x") == ("@2x.png".data.isSuffixOf e.filename.data))) = true ∧
    contentsManifest.info.author ≠ "" ∧
    contentsManifest.info.version = 1 := by
  refine ⟨by decide, by decide, by decide, by decide, by decide⟩

/-- C8: `create_icon` is deterministic — any two calls with equal size
arguments return images with identical dimensions and pixel-for-pixel
identical contents; the output depends on nothing but the size argument. -/
theorem createIcon_deterministic (s₁ s₂ : ℕ) (h : s₁ = s₂) :
    (createIcon s₁).width = (createIcon s₂).width ∧
    (createIcon s₁).height = (createIcon s₂).height ∧
    ∀ x y : ℤ, (createIcon s₁).pix x y = (createIcon s₂).pix x y := by
  subst h; exact ⟨rfl, rfl, fun _ _ => rfl⟩

/-- Witness for C8 at size 16. -/
theorem createIcon_deterministic_witness :
    (createIcon 16).width = (createIcon 16).width ∧
    (createIcon 16).height = (createIcon 16).height ∧
    ∀ x y : ℤ, (createIcon 16).pix x y = (createIcon 16).pix x y :=
  createIcon_deterministic 16 16 rfl

/-! ## Arithmetic facts about `pyInt` and the mask geometry -/

lemma pyInt_nonneg (q : ℚ) (h : 0 ≤ q) : 0 ≤ pyInt q := by
  rw [pyInt, if_pos h]; positivity

lemma pyInt_le (q : ℚ) (h : 0 ≤ q) : (pyInt q : ℚ) ≤ q := by
  rw [pyInt, if_pos h]; exact_mod_cast Int.floor_le q

lemma corner_radius_nonneg (size : ℕ) : 0 ≤ corner_radius size :=
  pyInt_nonneg _ (by positivity)

lemma two_corner_radius_lt (size : ℕ) (hs : 1 ≤ size) :
    2 * corner_radius size < (size : ℤ) := by
  have h := pyInt_le ((size : ℚ) * (22 / 100)) (by positivity)
  have hs' : (1 : ℚ) ≤ (size : ℚ) := by exact_mod_cast hs
  have hq : ((2 * corner_radius size : ℤ) : ℚ) < (size : ℚ) := by
    rw [corner_radius]
    push_cast
    linarith
  exact_mod_cast hq

/-- The x-coordinate of the mask arc centre nearest to column `x`:
`corner_radius` on the left half, `size - corner_radius` on the right. -/
def arcCenterX (size : ℕ) (x : ℤ) : ℤ :=
  if x < corner_radius size then corner_radius size
  else (size : ℤ) - corner_radius size

/-- The y-coordinate of the mask arc centre nearest to row `y`. -/
def arcCenterY (size : ℕ) (y : ℤ) : ℤ :=
  if y < corner_radius size then corner_radius size
  else (size : ℤ) - corner_radius size

/-- C2 is false as stated: at pixel size 16 (pair `(16, 1)` of the fixed
enumeration) the corner radius is `int(0.22 * 16) = 3` and the pixel `(2, 2)`
lies inside the top-left 3 × 3 corner square, yet its alpha in the output of
`create_icon(16)` is 255, not 0: the mask keeps the quarter-disc part of each
corner square fully opaque. -/
theorem corner_square_not_fully_transparent :
    (16, 1) ∈ sizes ∧ corner_radius 16 = 3 ∧
    (0 : ℤ) ≤ 2 ∧ (2 : ℤ) < corner_radius 16 ∧
    alphaAt (createIcon 16) 2 2 ≠ 0 := by
  have h16 : corner_radius 16 = 3 := by norm_num [corner_radius, pyInt]
  refine ⟨by decide, h16, by decide, by rw [h16]; decide, ?_⟩
  show maskPix 16 2 2 ≠ 0
  simp only [maskPix, h16]
  decide

/-- C2 amended: for every size ≥ 1 (hence for every size of the fixed
enumeration), any pixel of the four corner-radius-sized corner squares whose
squared distance from that corner's arc centre exceeds the squared corner
radius has alpha 0 in the output of `create_icon(size)`; only the
quarter-disc part of each corner square is left opaque by the mask. -/
theorem corner_pixels_outside_arc_transparent (size : ℕ) (hs : 1 ≤ size)
    (x y : ℤ) (hx0 : 0 ≤ x) (hx1 : x < (size : ℤ)) (hy0 : 0 ≤ y)
    (hy1 : y < (size : ℤ))
    (hcx : x < corner_radius size ∨ (size : ℤ) - corner_radius size ≤ x)
    (hcy : y < corner_radius size ∨ (size : ℤ) - corner_radius size ≤ y)
    (hd : corner_radius size ^ 2 <
      (x - arcCenterX size x) ^ 2 + (y - arcCenterY size y) ^ 2) :
    alphaAt (createIcon size) x y = 0 := by
  have hr0 : 0 ≤ corner_radius size := corner_radius_nonneg size
  have hr2 : 2 * corner_radius size < (size : ℤ) := two_corner_radius_lt size hs
  have hmask : ¬ InRoundedRect 0 0 (size : ℤ) (size : ℤ) (corner_radius size) x y := by
    intro h
    obtain ⟨-, -, -, -, htl, htr, hbl, hbr⟩ := h
    simp only [arcCenterX, arcCenterY] at hd
    rcases hcx with hx | hx <;> rcases hcy with hy | hy
    · rw [if_pos hx, if_pos hy] at hd
      have hdisc := htl ⟨by omega, by omega⟩
      linarith [hdisc]
    · rw [if_pos hx, if_neg (show ¬ y < corner_radius size by omega)] at hd
      rcases eq_or_lt_of_le hy with heq | hgt
      · have hv : y - ((size : ℤ) - corner_radius size) = 0 := by omega
        have hu : (x - corner_radius size) ^ 2 ≤ corner_radius size ^ 2 :=
          sq_le_sq' (by omega) (by omega)
        rw [hv] at hd
        simp only [ne_eq, OfNat.ofNat_ne_zero, not_false_eq_true, zero_pow,
          add_zero] at hd
        linarith
      · have hdisc := hbl ⟨by omega, hgt⟩
        linarith [hdisc]
    · rw [if_neg (show ¬ x < corner_radius size by omega), if_pos hy] at hd
      rcases eq_or_lt_of_le hx with heq | hgt
      · have hu : x - ((size : ℤ) - corner_radius size) = 0 := by omega
        have hv : (y - corner_radius size) ^ 2 ≤ corner_radius size ^ 2 :=
          sq_le_sq' (by omega) (by omega)
        rw [hu] at hd
        simp only [ne_eq, OfNat.ofNat_ne_zero, not_false_eq_true, zero_pow,
          zero_add] at hd
        linarith
      · have hdisc := htr ⟨hgt, by omega⟩
        linarith [hdisc]
    · rw [if_neg (show ¬ x < corner_radius size by omega),
        if_neg (show ¬ y < corner_radius size by omega)] at hd
      rcases eq_or_lt_of_le hx with heqx | hgtx
      · have hu : x - ((size : ℤ) - corner_radius size) = 0 := by omega
        have hv : (y - ((size : ℤ) - corner_radius size)) ^ 2 ≤
            corner_radius size ^ 2 := sq_le_sq' (by omega) (by omega)
        rw [hu] at hd
        simp only [ne_eq, OfNat.ofNat_ne_zero, not_false_eq_true, zero_pow,
          zero_add] at hd
        linarith
      · rcases eq_or_lt_of_le hy with heqy | hgty
        · have hv : y - ((size : ℤ) - corner_radius size) = 0 := by omega
          have hu : (x - ((size : ℤ) - corner_radius size)) ^ 2 ≤
              corner_radius size ^ 2 := sq_le_sq' (by omega) (by omega)
          rw [hv] at hd
          simp only [ne_eq, OfNat.ofNat_ne_zero, not_false_eq_true, zero_pow,
            add_zero] at hd
          linarith
        · have hdisc := hbr ⟨hgtx, hgty⟩
          linarith
  show maskPix size x y = 0
  simp [maskPix, hmask]

/-- Witness for the amended C2: at size 16 the literal corner pixel (0, 0)
is transparent. -/
theorem corner_pixels_outside_arc_transparent_witness :
    alphaAt (createIcon 16) 0 0 = 0 := by
  have h16 : corner_radius 16 = 3 := by norm_num [corner_radius, pyInt]
  refine corner_pixels_outside_arc_transparent 16 (by norm_num) 0 0 (by norm_num)
    (by norm_num) (by norm_num) (by norm_num) (Or.inl (by rw [h16]; norm_num))
    (Or.inl (by rw [h16]; norm_num)) ?_
  simp only [arcCenterX, arcCenterY]
  rw [h16]
  norm_num

/-! ## C5: the gradient loop paints each row with its interpolated colour

The loop iteration for row index `n` fills the two pixel rows `n` and `n + 1`
(PIL rectangles include both corners), so row `y` is painted by iterations
`y - 1` and `y`; the later one wins, leaving row `y` with `gradColor size y`. -/

lemma gradientFill_row (size : ℕ) (f : PixFun) (n : ℕ) (x : ℤ)
    (hx0 : 0 ≤ x) (hx1 : x ≤ (size : ℤ)) (y : ℕ) (hy : y < n) :
    gradientFill size n f x (y : ℤ) = gradColor size y := by
  induction n with
  | zero => omega
  | succ m ih =>
    have hstep : gradientFill size (m + 1) f x (y : ℤ) =
        if 0 ≤ x ∧ x ≤ (size : ℤ) ∧ (m : ℤ) ≤ (y : ℤ) ∧ (y : ℤ) ≤ (m : ℤ) + 1
        then gradColor size m
        else gradientFill size m f x (y : ℤ) := rfl
    rcases Nat.lt_succ_iff_lt_or_eq.1 hy with h | h
    · rw [hstep, if_neg (by intro hc; omega), ih h]
    · subst h
      rw [hstep, if_pos ⟨hx0, hx1, by omega, by omega⟩]

/-- The pixel sizes at which `generate_all_icons` invokes `create_icon`:
`base_size * scale` over the fixed enumeration — all powers of two. -/
def pixelSizes : List ℕ := sizes.map fun p => p.1 * p.2

/-- Modelled from the spec: the Python runtime's IEEE binary64 float
semantics, which the gradient expression relies on, is not code of this
repository.  `RoundsTo x d` certifies that the dyadic rational `d` is the
binary64 round-to-nearest-even value of the real `x`, in the scale range
these computations use: `d = m / 2 ^ k` with mantissa `2 ^ 52 < m < 2 ^ 53`,
so the representable neighbours of `d` sit at distance `1 / 2 ^ k`, and `x`
is either strictly within half that spacing of `d`, or exactly at half
spacing with `m` even (a tie rounds to the even mantissa). -/
def RoundsTo (x d : ℚ) : Prop :=
  ∃ m : ℤ, ∃ k : ℕ, d = (m : ℚ) / 2 ^ k ∧ 2 ^ 52 < m ∧ m < 2 ^ 53 ∧
    ((d - x < 1 / 2 ^ (k + 1) ∧ x - d < 1 / 2 ^ (k + 1)) ∨
     ((d - x = 1 / 2 ^ (k + 1) ∨ x - d = 1 / 2 ^ (k + 1)) ∧ m % 2 = 0))

/-- The binary64 value of `ratio = y / size` at `size = 12`, `y = 5`. -/
def flRatio12_5 : ℚ := 7505999378950827 / 2 ^ 54

/-- The binary64 value of `1 - ratio` at size 12, row 5 (a tie, rounded to
the even mantissa). -/
def flOneMinus12_5 : ℚ := 5254199565265578 / 2 ^ 53

/-- The binary64 value of `gradient_color[2] * (1 - ratio)`, i.e.
`234 * (1 - ratio)`, at size 12, row 5. -/
def flBlue1_12_5 : ℚ := 4802666790125567 / 2 ^ 45

/-- The binary64 value of `gradient_color2[2] * ratio`, i.e. `162 * ratio`,
at size 12, row 5. -/
def flBlue2_12_5 : ℚ := 4749890231992320 / 2 ^ 46

/-- The binary64 value of the blue-channel sum
`234 * (1 - ratio) + 162 * ratio` at size 12, row 5: the addition of the two
summands above is exact, and the result is `204 - 1 / 2 ^ 45`, just below
204. -/
def flBlueSum12_5 : ℚ := 7177611906121727 / 2 ^ 45

/-- C5 is false as stated for arbitrary sizes: at `create_icon(12)`, row 5,
the program's IEEE binary64 evaluation of the blue channel
`int(234 * (1 - ratio) + 162 * ratio)` with `ratio = 5 / 12` — certified
below step by correctly-rounded step — yields `int(203.99999999999997) =
203`, while the exact linear interpolation at ratio `5 / 12` is 204: the row
colour the program fills is not the interpolation the claim states. -/
theorem gradient_row_color_fails_at_size_12 :
    RoundsTo ((5 : ℚ) / 12) flRatio12_5 ∧
    RoundsTo (1 - flRatio12_5) flOneMinus12_5 ∧
    RoundsTo (234 * flOneMinus12_5) flBlue1_12_5 ∧
    RoundsTo (162 * flRatio12_5) flBlue2_12_5 ∧
    RoundsTo (flBlue1_12_5 + flBlue2_12_5) flBlueSum12_5 ∧
    pyInt flBlueSum12_5 = 203 ∧
    pyInt (234 * (1 - (5 : ℚ) / 12) + 162 * ((5 : ℚ) / 12)) = 204 ∧
    (203 : ℤ) ≠ 204 := by
  refine ⟨⟨7505999378950827, 54, ?_, by norm_num, by norm_num, Or.inl ⟨?_, ?_⟩⟩,
    ⟨5254199565265578, 53, ?_, by norm_num, by norm_num,
      Or.inr ⟨Or.inr ?_, by norm_num⟩⟩,
    ⟨4802666790125567, 45, ?_, by norm_num, by norm_num, Or.inl ⟨?_, ?_⟩⟩,
    ⟨4749890231992320, 46, ?_, by norm_num, by norm_num, Or.inl ⟨?_, ?_⟩⟩,
    ⟨7177611906121727, 45, ?_, by norm_num, by norm_num, Or.inl ⟨?_, ?_⟩⟩,
    ?_, ?_, by norm_num⟩ <;>
    norm_num [flRatio12_5, flOneMinus12_5, flBlue1_12_5, flBlue2_12_5,
      flBlueSum12_5, pyInt]

/-- C5 amended: for every pixel size of the fixed enumeration — the sizes
`create_icon` is actually invoked with, all powers of two, at which every
intermediate value of the Python float expression is a dyadic rational of
under 20 significant bits and hence exactly representable in binary64, so
exact rational arithmetic coincides with the program — the gradient pass
leaves every pixel of row `y` holding the colour obtained by linear
interpolation between the fixed endpoints (102, 126, 234) and (118, 75, 162)
at ratio `y / size` (each channel truncated by `int()`), fully opaque
(alpha 255).  At other sizes binary64 rounding can lower a channel by one,
as the counterexample at size 12 shows. -/
theorem gradient_row_color (size : ℕ) (_hsize : size ∈ pixelSizes) (x : ℤ) (y : ℕ)
    (hx0 : 0 ≤ x) (hx1 : x < (size : ℤ)) (hy : y < size) :
    gradientImage size x (y : ℤ) =
      (pyInt (102 * (1 - (y : ℚ) / size) + 118 * ((y : ℚ) / size)),
       pyInt (126 * (1 - (y : ℚ) / size) + 75 * ((y : ℚ) / size)),
       pyInt (234 * (1 - (y : ℚ) / size) + 162 * ((y : ℚ) / size)),
       255) :=
  gradientFill_row size transparentPix size x hx0 (le_of_lt hx1) y hy

/-- Witness for the amended C5: at pixel size 16 of the enumeration, row 0,
column 0, the gradient pixel is the first endpoint `(102, 126, 234)`, fully
opaque. -/
theorem gradient_row_color_witness :
    gradientImage 16 0 0 = (102, 126, 234, 255) := by
  refine (gradient_row_color 16 (by decide) 0 0 (by norm_num) (by norm_num)
    (by norm_num)).trans ?_
  have h0 : ((0 : ℕ) : ℚ) / ((16 : ℕ) : ℚ) = 0 := by norm_num
  rw [h0]
  norm_num [pyInt, Prod.ext_iff]

/-! ## C9: the four bars lie inside the canvas -/

lemma bar_width_nonneg (size : ℕ) : 0 ≤ bar_width size :=
  pyInt_nonneg _ (by positivity)

lemma bar_spacing_nonneg (size : ℕ) : 0 ≤ bar_spacing size :=
  pyInt_nonneg _ (by positivity)

lemma bar_heights_getD_nonneg (i : ℕ) : 0 ≤ bar_heights.getD i 0 := by
  rcases i with _ | _ | _ | _ | i <;>
    norm_num [bar_heights, List.getD_cons_succ, List.getD_cons_zero, List.getD_nil]

lemma bar_heights_getD_le (i : ℕ) : bar_heights.getD i 0 ≤ 45 / 100 := by
  rcases i with _ | _ | _ | _ | i <;>
    norm_num [bar_heights, List.getD_cons_succ, List.getD_cons_zero, List.getD_nil]

lemma bar_height_le (size i : ℕ) : (bar_height size i : ℚ) ≤ (size : ℚ) * (45 / 100) := by
  calc (bar_height size i : ℚ) ≤ (size : ℚ) * bar_heights.getD i 0 :=
        pyInt_le _ (mul_nonneg (by positivity) (bar_heights_getD_nonneg i))
    _ ≤ (size : ℚ) * (45 / 100) :=
        mul_le_mul_of_nonneg_left (bar_heights_getD_le i) (by positivity)

lemma total_width_nonneg (size : ℕ) : 0 ≤ total_width size := by
  have h1 := bar_width_nonneg size
  have h2 := bar_spacing_nonneg size
  rw [total_width]; linarith

lemma total_width_le (size : ℕ) : total_width size ≤ (size : ℤ) := by
  have h1 := pyInt_le ((size : ℚ) * (15 / 100)) (by positivity)
  have h2 := pyInt_le ((size : ℚ) * (5 / 100)) (by positivity)
  have hq : ((total_width size : ℤ) : ℚ) ≤ ((size : ℕ) : ℚ) := by
    rw [total_width, bar_width, bar_spacing]
    push_cast
    have hs : (0 : ℚ) ≤ (size : ℚ) := by positivity
    linarith
  exact_mod_cast hq

lemma start_x_eq (size : ℕ) : start_x size = ((size : ℤ) - total_width size) / 2 :=
  Int.fdiv_eq_ediv _ (by norm_num)

/-- C9: for every size ≥ 1 and each of the four bars drawn by
`create_icon(size)`, the bar lies entirely within the canvas: the group's
starting column `start_x` is non-negative, the bar's right edge
`x + bar_width` is at most `size`, and the bar's top edge
`y = size - bottom_padding - bar_height` is non-negative. -/
theorem bars_within_canvas (size : ℕ) (hs : 1 ≤ size) (i : ℕ) (hi : i < 4) :
    0 ≤ start_x size ∧
    barX size i + bar_width size ≤ (size : ℤ) ∧
    0 ≤ barY size i := by
  have hbw := bar_width_nonneg size
  have hbs := bar_spacing_nonneg size
  have htw0 := total_width_nonneg size
  have htws := total_width_le size
  have hsx := start_x_eq size
  refine ⟨by rw [hsx]; omega, ?_, ?_⟩
  · have hi3 : (i : ℤ) ≤ 3 := by exact_mod_cast Nat.le_of_lt_succ hi
    have hx : barX size i + bar_width size ≤ start_x size + total_width size := by
      rw [barX, total_width]
      nlinarith [mul_nonneg (show (0 : ℤ) ≤ 3 - (i : ℤ) by omega)
        (show (0 : ℤ) ≤ bar_width size + bar_spacing size by omega)]
    have hsx2 : start_x size ≤ (size : ℤ) - total_width size := by rw [hsx]; omega
    linarith
  · have h1 := pyInt_le ((size : ℚ) * (15 / 100)) (by positivity)
    have h2 := bar_height_le size i
    have hq : ((bottom_padding size + bar_height size i : ℤ) : ℚ) ≤ ((size : ℕ) : ℚ) := by
      rw [bottom_padding]
      push_cast
      have hs0 : (0 : ℚ) ≤ (size : ℚ) := by positivity
      linarith
    have hsum : bottom_padding size + bar_height size i ≤ (size : ℤ) := by
      exact_mod_cast hq
    rw [barY]; omega

/-- Witness for C9 at size 16, bar 0. -/
theorem bars_within_canvas_witness :
    0 ≤ start_x 16 ∧ barX 16 0 + bar_width 16 ≤ (16 : ℤ) ∧ 0 ≤ barY 16 0 :=
  bars_within_canvas 16 (by norm_num) 0 (by norm_num)
